import Mathlib

/-!
Verification of the coachella_set_schedule core: the slip/variance
computation engine (`app/slip.py`), the schedule store's sheet reader
(`app/sheets.py`) and the real-time connection hub (`app/websocket.py`).

Wall-clock times of day are embedded as natural numbers of seconds since
midnight; `datetime` values obtained by `time_to_datetime` (combining a
time with today's date) become integers of seconds since today's
midnight, so differences and `timedelta` addition are plain integer
arithmetic, exactly as `total_seconds()` yields on whole-second inputs.
Python truthiness is modelled where the source relies on it: a `time`
value is always truthy (so `if act.actual_end:` means "is present"), an
empty string and `None` are falsy.
-/

namespace CoachellaSetSchedule

/-- Modelled from the spec: the Act record lives in `app/models.py`, which is
not among the provided sources. Fields follow spec §3: a name, scheduled
start/end times of day, and optional actual start/end times of day. Times
are embedded as seconds since midnight. -/
structure Act where
  act_name : String
  scheduled_start : Nat
  scheduled_end : Nat
  actual_start : Option Nat
  actual_end : Option Nat
  notes : Option String
deriving Repr, DecidableEq

/-- Modelled from the spec: derived field of the Act model (`app/models.py`,
absent from the sources); spec §3 says `scheduled_duration` is computed as
`scheduled_end − scheduled_start` (a non-negative duration under the spec's
invariant that the scheduled end is later than the scheduled start). -/
def Act.scheduled_duration (a : Act) : Int :=
  (a.scheduled_end : Int) - (a.scheduled_start : Int)

/-- Modelled from the spec: derived field of the Act model (`app/models.py`,
absent from the sources); spec §3 says `end_variance` is
`actual_end − scheduled_end` in signed seconds, absent while the act has no
actual end. -/
def Act.end_variance (a : Act) : Option Int :=
  a.actual_end.map (fun ae => (ae : Int) - (a.scheduled_end : Int))

/-- Python `x or 0` on an optional integer: `None` and `0` are falsy, so
both yield `0`; any other value is returned unchanged. -/
def orZero : Option Int → Int
  | none => 0
  | some v => if v = 0 then 0 else v

/-- Loop body of `calculate_slip` (`app/slip.py` lines 27-40): a completed
act (truthy `actual_end`) overwrites the running slip with
`max(0, end_variance or 0)`; an in-progress act (truthy `actual_start`,
falsy `actual_end`) overwrites it with the projected slip
`max(0, (actual_start + scheduled_duration) - scheduled_end)`; any other
act leaves the running slip unchanged. -/
def slipStep (slip : Int) (act : Act) : Int :=
  match act.actual_end, act.actual_start with
  | some _, _ =>
      max 0 (orZero act.end_variance)
  | none, some s =>
      max 0 ((s : Int) + act.scheduled_duration - (act.scheduled_end : Int))
  | none, none => slip

/-- `calculate_slip` (`app/slip.py` lines 12-42): a single pass over the
acts starting from `slip = 0`. The `current_time` parameter is kept to
mirror the source signature (where it defaults to `datetime.now().time()`
when absent) but, as in the source, it is never read by the computation. -/
def calculate_slip (acts : List Act) (current_time : Option Nat) : Int :=
  acts.foldl slipStep 0

/-- Contribution an act makes when the loop of `calculate_slip` reaches it:
`some` of the value it overwrites the running slip with, or `none` when it
leaves the running slip unchanged. -/
def act_contribution (act : Act) : Option Int :=
  match act.actual_end, act.actual_start with
  | some _, _ =>
      some (max 0 (orZero act.end_variance))
  | none, some s =>
      some (max 0 ((s : Int) + act.scheduled_duration - (act.scheduled_end : Int)))
  | none, none => none

/-- Contribution of the act latest in the sequence that has one. -/
def last_contribution : List Act → Option Int
  | [] => none
  | a :: rest =>
      match last_contribution rest with
      | some v => some v
      | none => act_contribution a

/-- A completed headliner that ran 90 seconds over: scheduled 20:00-21:00,
actually ended 21:01:30. -/
def act_late90 : Act :=
  ⟨"headliner", 72000, 75600, some 72000, some 75690, none⟩

/-- A completed act that finished 30 seconds early: scheduled 20:00-21:00,
actually ended 20:59:30. -/
def act_early30 : Act :=
  ⟨"early act", 72000, 75600, some 72000, some 75570, none⟩

/-- An act that has not started: no actual times at all. -/
def act_unstarted : Act :=
  ⟨"future act", 72000, 75600, none, none, none⟩

/-- An in-progress act scheduled 10:00-11:00 that actually started 5
minutes late (10:05) and has no actual end yet. -/
def act_in_progress5 : Act :=
  ⟨"running act", 36000, 39600, some 36300, none, none⟩

lemma slipStep_eq_contribution (slip : Int) (act : Act) :
    slipStep slip act = (act_contribution act).getD slip := by
  unfold slipStep act_contribution
  rcases act.actual_end with _ | ae <;> rcases act.actual_start with _ | as <;> rfl

lemma foldl_slipStep_eq_last_contribution (acts : List Act) :
    ∀ s : Int, acts.foldl slipStep s = (last_contribution acts).getD s := by
  induction acts with
  | nil => intro s; rfl
  | cons a rest ih =>
      intro s
      rw [List.foldl_cons, ih, slipStep_eq_contribution]
      rcases h : last_contribution rest with _ | v
      · simp [last_contribution, h]
      · simp [last_contribution, h]

lemma act_contribution_none_of_no_data (a : Act)
    (hs : a.actual_start = none) (he : a.actual_end = none) :
    act_contribution a = none := by
  unfold act_contribution
  rw [hs, he]

lemma last_contribution_none_of_no_data (acts : List Act)
    (h : ∀ a ∈ acts, a.actual_start = none ∧ a.actual_end = none) :
    last_contribution acts = none := by
  induction acts with
  | nil => rfl
  | cons a rest ih =>
      unfold last_contribution
      rw [ih fun b hb => h b (List.mem_cons_of_mem a hb)]
      exact act_contribution_none_of_no_data a
        (h a (List.mem_cons_self a rest)).1 (h a (List.mem_cons_self a rest)).2

/-- C1: `calculate_slip` returns the contribution of whichever act is last
in the given sequence that has actual start/end data (overwriting, not
accumulating, earlier contributions); when no act has such data — in
particular for the empty list — the result is 0; a single completed act
with end variance +90 yields slip 90 and with end variance -30 yields
slip 0. -/
theorem calculate_slip_last_act_wins :
    (∀ (acts : List Act) (t : Option Nat),
        calculate_slip acts t = (last_contribution acts).getD 0)
    ∧ (∀ (acts : List Act) (t : Option Nat),
        (∀ a ∈ acts, a.actual_start = none ∧ a.actual_end = none) →
          calculate_slip acts t = 0)
    ∧ calculate_slip [] none = 0
    ∧ calculate_slip [act_late90] none = 90
    ∧ calculate_slip [act_early30] none = 0 := by
  refine ⟨?_, ?_, rfl, by decide, by decide⟩
  · intro acts t
    exact foldl_slipStep_eq_last_contribution acts 0
  · intro acts t h
    unfold calculate_slip
    rw [foldl_slipStep_eq_last_contribution acts 0,
      last_contribution_none_of_no_data acts h]
    rfl

/-- Witness for C1: the no-data clause applied at a concrete one-element
list whose act has neither actual start nor actual end. -/
theorem calculate_slip_last_act_wins_witness :
    calculate_slip [act_unstarted] none = 0 :=
  calculate_slip_last_act_wins.2.1 [act_unstarted] none (by decide)

/-- C2: the loop of `calculate_slip` maps an in-progress act (actual start
present, actual end absent) to the running slip
`max(0, actual_start + scheduled_duration - scheduled_end)`; an act that
started 5 minutes late with unchanged scheduled duration yields a
projected slip of 300 seconds. -/
theorem calculate_slip_in_progress_projection :
    (∀ (slip : Int) (act : Act) (s : Nat),
        act.actual_start = some s → act.actual_end = none →
          slipStep slip act =
            max 0 ((s : Int) + act.scheduled_duration - (act.scheduled_end : Int)))
    ∧ calculate_slip [act_in_progress5] none = 300 := by
  refine ⟨?_, by decide⟩
  intro slip act s hs he
  unfold slipStep
  rw [hs, he]

/-- Witness for C2: the in-progress clause applied at the concrete act
that started 5 minutes late. -/
theorem calculate_slip_in_progress_projection_witness :
    slipStep 0 act_in_progress5 =
      max 0 ((36300 : Int) + act_in_progress5.scheduled_duration
        - (act_in_progress5.scheduled_end : Int)) :=
  calculate_slip_in_progress_projection.1 0 act_in_progress5 36300 rfl rfl

/-- C3: `calculate_slip` never returns a negative value, whatever the act
list and reference time; early finishes cannot drive it below zero. -/
theorem calculate_slip_nonneg (acts : List Act) (t : Option Nat) :
    0 ≤ calculate_slip acts t := by
  unfold calculate_slip
  have key : ∀ (l : List Act) (s : Int), 0 ≤ s → 0 ≤ l.foldl slipStep s := by
    intro l
    induction l with
    | nil => intro s hs; simpa using hs
    | cons a rest ih =>
        intro s hs
        rw [List.foldl_cons]
        refine ih _ ?_
        unfold slipStep
        rcases a.actual_end with _ | ae <;> rcases a.actual_start with _ | as
        · exact hs
        · exact le_max_left 0 _
        · exact le_max_left 0 _
        · exact le_max_left 0 _
  exact key acts 0 le_rfl

/-- C10: the `current_time` argument of `calculate_slip` (defaulted from
the wall clock in the source, but never read afterwards) has no influence
on the result: the function is determined by the act list alone. -/
theorem calculate_slip_ignores_current_time
    (acts : List Act) (t1 t2 : Option Nat) :
    calculate_slip acts t1 = calculate_slip acts t2 := rfl

/-- `format_duration` (`app/slip.py` lines 45-58): negative inputs recurse
on the absolute value behind a minus sign; non-negative inputs use
`divmod(seconds, 3600)` then `divmod(remainder, 60)` (plain natural
division here, since the branch only sees non-negative values) and render
hours+minutes, minutes alone, or bare seconds. -/
def format_duration (seconds : Int) : String :=
  if h : seconds < 0 then
    "-" ++ format_duration (abs seconds)
  else
    let s := seconds.toNat
    let hours := s / 3600
    let remainder := s % 3600
    let minutes := remainder / 60
    let secs := remainder % 60
    if hours > 0 then toString hours ++ "h " ++ toString minutes ++ "m"
    else if minutes > 0 then toString minutes ++ "m"
    else toString secs ++ "s"
termination_by seconds.natAbs + (if seconds < 0 then 1 else 0)
decreasing_by
  rw [abs_of_neg h, Int.natAbs_neg, if_neg (by omega : ¬(-seconds < 0)), if_pos h]
  omega

/-- `format_variance` (`app/slip.py` lines 61-70): absent values render
empty, zero renders "on time", positive values get a "+" prefix, negative
values rely on `format_duration` to carry the minus sign. -/
def format_variance (seconds : Option Int) : String :=
  match seconds with
  | none => ""
  | some s =>
      if s = 0 then "on time"
      else if s > 0 then "+" ++ format_duration s
      else format_duration s

lemma format_duration_of_neg (s : Int) (h : s < 0) :
    format_duration s = "-" ++ format_duration (abs s) := by
  rw [format_duration.eq_def, dif_pos h]

lemma format_duration_of_nonneg (s : Int) (h : 0 ≤ s) :
    format_duration s =
      (if s.toNat / 3600 > 0 then
        toString (s.toNat / 3600) ++ "h " ++ toString (s.toNat % 3600 / 60) ++ "m"
      else if s.toNat % 3600 / 60 > 0 then toString (s.toNat % 3600 / 60) ++ "m"
      else toString (s.toNat % 3600 % 60) ++ "s") := by
  rw [format_duration.eq_def, dif_neg (by omega : ¬ s < 0)]

/-- C7: `format_duration` renders a negative count as a minus sign before
the rendering of its absolute value, and a non-negative count as
hours+minutes when the whole-hour part is positive, else minutes when the
whole-minute part is positive, else bare seconds; in particular
0 ↦ "0s", 125 ↦ "2m", 3725 ↦ "1h 2m", -40 ↦ "-40s". -/
theorem format_duration_spec :
    (∀ s : Int, s < 0 → format_duration s = "-" ++ format_duration (abs s))
    ∧ (∀ s : Int, 0 ≤ s → format_duration s =
        (if s.toNat / 3600 > 0 then
          toString (s.toNat / 3600) ++ "h " ++ toString (s.toNat % 3600 / 60) ++ "m"
        else if s.toNat % 3600 / 60 > 0 then toString (s.toNat % 3600 / 60) ++ "m"
        else toString (s.toNat % 3600 % 60) ++ "s"))
    ∧ format_duration 0 = "0s"
    ∧ format_duration 125 = "2m"
    ∧ format_duration 3725 = "1h 2m"
    ∧ format_duration (-40) = "-40s" := by
  refine ⟨format_duration_of_neg, format_duration_of_nonneg, ?_, ?_, ?_, ?_⟩
  · rw [format_duration_of_nonneg 0 (by omega)]; rfl
  · rw [format_duration_of_nonneg 125 (by omega)]; rfl
  · rw [format_duration_of_nonneg 3725 (by omega)]; rfl
  · rw [format_duration_of_neg (-40) (by omega)]
    rw [show |(-40 : Int)| = 40 from rfl, format_duration_of_nonneg 40 (by omega)]
    rfl

/-- Witness for C7: the negative and non-negative clauses of the theorem
instantiated at -40 and 125. -/
theorem format_duration_spec_witness :
    format_duration (-40) = "-" ++ format_duration (abs (-40 : Int))
    ∧ format_duration 125 =
        (if (125 : Int).toNat / 3600 > 0 then
          toString ((125 : Int).toNat / 3600) ++ "h "
            ++ toString ((125 : Int).toNat % 3600 / 60) ++ "m"
        else if (125 : Int).toNat % 3600 / 60 > 0 then
          toString ((125 : Int).toNat % 3600 / 60) ++ "m"
        else toString ((125 : Int).toNat % 3600 % 60) ++ "s") :=
  ⟨format_duration_spec.1 (-40) (by omega),
   format_duration_spec.2.1 125 (by omega)⟩

/-- C8: `format_variance` renders an absent value as the empty string,
zero as "on time", a positive value as "+" before its duration rendering,
and a negative value as its duration rendering (which carries the minus
sign); in particular `none` ↦ "", 0 ↦ "on time", 45 ↦ "+45s". -/
theorem format_variance_spec :
    format_variance none = ""
    ∧ format_variance (some 0) = "on time"
    ∧ (∀ s : Int, 0 < s → format_variance (some s) = "+" ++ format_duration s)
    ∧ (∀ s : Int, s < 0 → format_variance (some s) = format_duration s)
    ∧ format_variance (some 45) = "+45s" := by
  refine ⟨rfl, rfl, ?_, ?_, ?_⟩
  · intro s hs
    show (if s = 0 then "on time"
      else if s > 0 then "+" ++ format_duration s else format_duration s)
        = "+" ++ format_duration s
    rw [if_neg (by omega : ¬ s = 0), if_pos hs]
  · intro s hs
    show (if s = 0 then "on time"
      else if s > 0 then "+" ++ format_duration s else format_duration s)
        = format_duration s
    rw [if_neg (by omega : ¬ s = 0), if_neg (by omega : ¬ s > 0)]
  · show "+" ++ format_duration 45 = "+45s"
    rw [format_duration_of_nonneg 45 (by omega)]
    rfl

/-- Witness for C8: the positive and negative clauses of the theorem
instantiated at 45 and -40. -/
theorem format_variance_spec_witness :
    format_variance (some 45) = "+" ++ format_duration 45
    ∧ format_variance (some (-40)) = format_duration (-40) :=
  ⟨format_variance_spec.2.2.1 45 (by omega),
   format_variance_spec.2.2.2.1 (-40) (by omega)⟩

/-! Connection hub (`app/websocket.py`). A connection handle is opaque, so
it is embedded as a natural number. The Python dict `active_connections`
(websocket → is_editor) becomes an insertion-ordered association list with
pairwise-distinct keys (a dict cannot hold a key twice); assignment
updates in place or appends, `pop(websocket, None)` removes the key. The
transport is an environment parameter `sendOk : Conn → String → Bool`
telling whether `await conn.send_text(message)` returns normally (`false`
means it raises, which the source catches). Each broadcast returns the new
manager state together with the list of `(connection, message)` pairs
whose send succeeded, in send order; that the return type is a plain pair
rather than an exception-carrying value reflects that every transport
failure is caught inside `_send_to_all`. -/

abbrev Conn := Nat

structure ConnectionManager where
  active_connections : List (Conn × Bool)
  current_brightness : Int
deriving Repr, DecidableEq

/-- `ConnectionManager.__init__`: no connections, brightness 0. -/
def ConnectionManager.empty : ConnectionManager := ⟨[], 0⟩

/-- Python dict assignment `active_connections[websocket] = is_editor`:
overwrite in place when the key is present, append otherwise. -/
def dictInsert (l : List (Conn × Bool)) (c : Conn) (b : Bool) : List (Conn × Bool) :=
  if l.any (fun p => p.1 = c) then
    l.map (fun p => if p.1 = c then (c, b) else p)
  else l ++ [(c, b)]

/-- `connect` (`app/websocket.py` lines 14-17), after the transport accept
succeeds: register the connection with its role flag. -/
def connect (m : ConnectionManager) (websocket : Conn) (is_editor : Bool) :
    ConnectionManager :=
  { m with active_connections := dictInsert m.active_connections websocket is_editor }

/-- `disconnect` (`app/websocket.py` lines 19-21):
`active_connections.pop(websocket, None)` — drop the key if present,
no-op otherwise. -/
def disconnect (m : ConnectionManager) (websocket : Conn) : ConnectionManager :=
  { m with active_connections :=
      m.active_connections.filter (fun p => p.1 ≠ websocket) }

/-- Loop body of `_send_to_all` over one entry of the live set: skip when
the payload is falsy (`None` or the empty string, per `if message:`),
record a successful send, or mark the connection as disconnected when the
send raises. -/
def sendStep (get_message : Conn → Bool → Option String)
    (sendOk : Conn → String → Bool)
    (acc : List (Conn × String) × List Conn) (p : Conn × Bool) :
    List (Conn × String) × List Conn :=
  match get_message p.1 p.2 with
  | some message =>
      if message = "" then acc
      else if sendOk p.1 message then (acc.1 ++ [(p.1, message)], acc.2)
      else (acc.1, acc.2 ++ [p.1])
  | none => acc

/-- `_send_to_all` (`app/websocket.py` lines 23-34): one pass over the live
set attempting each truthy payload and collecting the connections whose
send raised, then a second pass removing each collected connection;
returns the new state and the successfully delivered pairs. -/
def _send_to_all (m : ConnectionManager)
    (get_message : Conn → Bool → Option String)
    (sendOk : Conn → String → Bool) : ConnectionManager × List (Conn × String) :=
  let res := m.active_connections.foldl (sendStep get_message sendOk) ([], [])
  let cleaned := res.2.foldl (fun mm conn => disconnect mm conn) m
  (cleaned, res.1)

/-- `broadcast` (`app/websocket.py` lines 36-38): same payload for every
connection. -/
def broadcast (m : ConnectionManager) (message : String)
    (sendOk : Conn → String → Bool) : ConnectionManager × List (Conn × String) :=
  _send_to_all m (fun _ _ => some message) sendOk

/-- `broadcast_schedule` (`app/websocket.py` lines 40-42): editor payload
for editors, viewer payload for everyone else. -/
def broadcast_schedule (m : ConnectionManager) (viewer_html editor_html : String)
    (sendOk : Conn → String → Bool) : ConnectionManager × List (Conn × String) :=
  _send_to_all m (fun _ is_editor => some (if is_editor then editor_html else viewer_html))
    sendOk

/-- `json.dumps` applied to the brightness event dictionary: the literal
JSON text with a "type" discriminator and the integer value. -/
def json_brightness (value : Int) : String :=
  "\x7b\"type\": \"brightness\", \"value\": " ++ toString value ++ "\x7d"

/-- `broadcast_brightness` (`app/websocket.py` lines 44-47): store the
value, then broadcast its JSON event to everyone. -/
def broadcast_brightness (m : ConnectionManager) (value : Int)
    (sendOk : Conn → String → Bool) : ConnectionManager × List (Conn × String) :=
  broadcast { m with current_brightness := value } (json_brightness value) sendOk

/-- Whether the loop of `_send_to_all` attempts this entry's send and the
send raises: the payload is truthy and the transport fails. -/
def sendFails (get_message : Conn → Bool → Option String)
    (sendOk : Conn → String → Bool) (p : Conn × Bool) : Bool :=
  match get_message p.1 p.2 with
  | some message => if message = "" then false else !sendOk p.1 message
  | none => false

/-- The `(connection, message)` pairs a pass of `_send_to_all` delivers:
every entry whose payload is truthy and whose send succeeds, in order. -/
def delivered_of (get_message : Conn → Bool → Option String)
    (sendOk : Conn → String → Bool) : List (Conn × Bool) → List (Conn × String)
  | [] => []
  | p :: rest =>
      match get_message p.1 p.2 with
      | some message =>
          if message = "" then delivered_of get_message sendOk rest
          else if sendOk p.1 message then
            (p.1, message) :: delivered_of get_message sendOk rest
          else delivered_of get_message sendOk rest
      | none => delivered_of get_message sendOk rest

/-- The connections a pass of `_send_to_all` marks for removal, in order. -/
def failed_of (get_message : Conn → Bool → Option String)
    (sendOk : Conn → String → Bool) : List (Conn × Bool) → List Conn
  | [] => []
  | p :: rest =>
      match get_message p.1 p.2 with
      | some message =>
          if message = "" then failed_of get_message sendOk rest
          else if sendOk p.1 message then failed_of get_message sendOk rest
          else p.1 :: failed_of get_message sendOk rest
      | none => failed_of get_message sendOk rest

section SendToAllLemmas

variable (gm : Conn → Bool → Option String) (ok : Conn → String → Bool)

lemma foldl_sendStep (l : List (Conn × Bool)) :
    ∀ (d : List (Conn × String)) (x : List Conn),
      l.foldl (sendStep gm ok) (d, x)
        = (d ++ delivered_of gm ok l, x ++ failed_of gm ok l) := by
  induction l with
  | nil => intro d x; simp [delivered_of, failed_of]
  | cons p rest ih =>
      intro d x
      rw [List.foldl_cons]
      rcases hm : gm p.1 p.2 with _ | message
      · rw [show sendStep gm ok (d, x) p = (d, x) by simp [sendStep, hm], ih]
        simp [delivered_of, failed_of, hm]
      · by_cases hempty : message = ""
        · rw [show sendStep gm ok (d, x) p = (d, x) by simp [sendStep, hm, hempty], ih]
          simp [delivered_of, failed_of, hm, hempty]
        · by_cases hok : ok p.1 message = true
          · rw [show sendStep gm ok (d, x) p = (d ++ [(p.1, message)], x) by
              simp [sendStep, hm, hempty, hok], ih]
            simp [delivered_of, failed_of, hm, hempty, hok]
          · rw [show sendStep gm ok (d, x) p = (d, x ++ [p.1]) by
              simp [sendStep, hm, hempty, hok], ih]
            simp [delivered_of, failed_of, hm, hempty, hok]

lemma foldl_disconnect_active (cs : List Conn) :
    ∀ m : ConnectionManager,
      (cs.foldl (fun mm conn => disconnect mm conn) m).active_connections
        = m.active_connections.filter (fun p => p.1 ∉ cs) := by
  induction cs with
  | nil => intro m; simp
  | cons c cs ih =>
      intro m
      rw [List.foldl_cons, ih]
      show (m.active_connections.filter (fun p => p.1 ≠ c)).filter (fun p => p.1 ∉ cs)
        = m.active_connections.filter (fun p => p.1 ∉ c :: cs)
      rw [List.filter_filter]
      refine List.filter_congr fun p _ => ?_
      by_cases h1 : p.1 = c <;> by_cases h2 : p.1 ∈ cs <;>
        simp [h1, h2, List.mem_cons]

lemma foldl_disconnect_brightness (cs : List Conn) :
    ∀ m : ConnectionManager,
      (cs.foldl (fun mm conn => disconnect mm conn) m).current_brightness
        = m.current_brightness := by
  induction cs with
  | nil => intro m; rfl
  | cons c cs ih => intro m; rw [List.foldl_cons, ih]; rfl

lemma sendToAll_active (m : ConnectionManager) :
    (_send_to_all m gm ok).1.active_connections
      = m.active_connections.filter
          (fun p => p.1 ∉ failed_of gm ok m.active_connections) := by
  unfold _send_to_all
  rw [foldl_sendStep]
  simpa using foldl_disconnect_active (failed_of gm ok m.active_connections) m

lemma sendToAll_brightness (m : ConnectionManager) :
    (_send_to_all m gm ok).1.current_brightness = m.current_brightness := by
  unfold _send_to_all
  rw [foldl_sendStep]
  simpa using foldl_disconnect_brightness (failed_of gm ok m.active_connections) m

lemma sendToAll_delivered (m : ConnectionManager) :
    (_send_to_all m gm ok).2 = delivered_of gm ok m.active_connections := by
  unfold _send_to_all
  rw [foldl_sendStep]
  simp

lemma failed_of_eq_filter (l : List (Conn × Bool)) :
    failed_of gm ok l = (l.filter (sendFails gm ok)).map Prod.fst := by
  induction l with
  | nil => rfl
  | cons p rest ih =>
      rcases hm : gm p.1 p.2 with _ | message
      · simp [failed_of, List.filter_cons, sendFails, hm, ih]
      · by_cases hempty : message = ""
        · simp [failed_of, List.filter_cons, sendFails, hm, hempty, ih]
        · by_cases hok : ok p.1 message = true
          · simp [failed_of, List.filter_cons, sendFails, hm, hempty, hok, ih]
          · simp [failed_of, List.filter_cons, sendFails, hm, hempty, hok, ih]

lemma filter_not_mem_failed (m : ConnectionManager)
    (hnd : (m.active_connections.map Prod.fst).Nodup) :
    m.active_connections.filter
        (fun p => p.1 ∉ failed_of gm ok m.active_connections)
      = m.active_connections.filter (fun p => !sendFails gm ok p) := by
  refine List.filter_congr fun p hp => ?_
  by_cases hf : sendFails gm ok p = true
  · have hmem : p.1 ∈ failed_of gm ok m.active_connections := by
      rw [failed_of_eq_filter]
      exact List.mem_map_of_mem Prod.fst (List.mem_filter.2 ⟨hp, hf⟩)
    simp [hmem, hf]
  · have hmem : p.1 ∉ failed_of gm ok m.active_connections := by
      rw [failed_of_eq_filter]
      intro hmem
      rcases List.mem_map.1 hmem with ⟨q, hq, hq1⟩
      rcases List.mem_filter.1 hq with ⟨hql, hqf⟩
      have hqp : q = p := List.inj_on_of_nodup_map hnd hql hp hq1
      exact hf (hqp ▸ hqf)
    simp [hmem, hf]

lemma delivered_of_total (f : Conn × Bool → String)
    (hgm : ∀ p : Conn × Bool, gm p.1 p.2 = some (f p))
    (hne : ∀ p : Conn × Bool, f p ≠ "")
    (hok : ∀ p : Conn × Bool, ok p.1 (f p) = true) (l : List (Conn × Bool)) :
    delivered_of gm ok l = l.map (fun p => (p.1, f p)) := by
  induction l with
  | nil => rfl
  | cons p rest ih =>
      simp [delivered_of, hgm p, hne p, hok p, ih]

lemma mem_delivered_of (gm : Conn → Bool → Option String)
    (ok : Conn → String → Bool) (l : List (Conn × Bool)) (p : Conn × Bool)
    (hp : p ∈ l) (msg : String) (hm : gm p.1 p.2 = some msg) (hne : msg ≠ "")
    (hok : ok p.1 msg = true) : (p.1, msg) ∈ delivered_of gm ok l := by
  induction l with
  | nil => cases hp
  | cons q rest ih =>
      rcases List.mem_cons.1 hp with h | hp'
      · subst h
        simp [delivered_of, hm, hne, hok]
      · cases hq : gm q.1 q.2 with
        | none => simpa [delivered_of, hq] using ih hp'
        | some qmsg =>
            by_cases hqe : qmsg = ""
            · simpa [delivered_of, hq, hqe] using ih hp'
            · by_cases hqok : ok q.1 qmsg = true
              · simp only [delivered_of, hq, if_neg hqe, if_pos hqok]
                exact List.mem_cons_of_mem _ (ih hp')
              · simpa [delivered_of, hq, hqe, hqok] using ih hp'

end SendToAllLemmas

lemma mem_dictInsert_self (l : List (Conn × Bool)) (c : Conn) (b : Bool) :
    (c, b) ∈ dictInsert l c b := by
  unfold dictInsert
  by_cases h : l.any (fun p => p.1 = c)
  · rw [if_pos h]
    rcases List.any_eq_true.1 h with ⟨p, hp, hpc⟩
    exact List.mem_map.2 ⟨p, hp, by simp [of_decide_eq_true hpc]⟩
  · rw [if_neg h]
    exact List.mem_append_right _ (List.mem_singleton_self _)

lemma dictInsert_key_val (l : List (Conn × Bool)) (c : Conn) (b : Bool) :
    ∀ p ∈ dictInsert l c b, p.1 = c → p.2 = b := by
  intro p hp hpc
  unfold dictInsert at hp
  by_cases h : l.any (fun q => q.1 = c)
  · rw [if_pos h] at hp
    rcases List.mem_map.1 hp with ⟨q, hq, hqeq⟩
    by_cases hqc : q.1 = c
    · rw [if_pos hqc] at hqeq
      rw [← hqeq]
    · rw [if_neg hqc] at hqeq
      exact absurd (hqeq ▸ hpc) hqc
  · rw [if_neg h] at hp
    rcases List.mem_append.1 hp with hl | hr
    · exact absurd (List.any_eq_true.2 ⟨p, hl, by simp [hpc]⟩) h
    · rw [List.mem_singleton.1 hr]

lemma dictInsert_nodup_keys (l : List (Conn × Bool)) (c : Conn) (b : Bool)
    (hnd : (l.map Prod.fst).Nodup) :
    ((dictInsert l c b).map Prod.fst).Nodup := by
  unfold dictInsert
  by_cases h : l.any (fun p => p.1 = c)
  · rw [if_pos h, List.map_map]
    have : ((fun p : Conn × Bool => p.1) ∘ fun p => if p.1 = c then (c, b) else p)
        = fun p : Conn × Bool => p.1 := by
      funext p
      by_cases hpc : p.1 = c <;> simp [hpc]
    rw [show (Prod.fst ∘ fun p : Conn × Bool => if p.1 = c then (c, b) else p)
        = fun p : Conn × Bool => p.1 from this]
    exact hnd
  · rw [if_neg h, List.map_append]
    have hc : c ∉ l.map Prod.fst := by
      intro hmem
      rcases List.mem_map.1 hmem with ⟨q, hq, hqc⟩
      exact h (List.any_eq_true.2 ⟨q, hq, by simp [hqc]⟩)
    simp only [List.map_cons, List.map_nil, List.nodup_append]
    exact ⟨hnd, List.nodup_singleton c, fun a ha hb => by
      simp only [List.mem_singleton] at hb
      exact hc (hb ▸ ha)⟩

/-- C4: a transport failure during any broadcast variant is contained in
the hub. The embedding of `_send_to_all` is a total function into plain
state/delivery pairs — every send failure is caught, none propagates to
the caller. The pass leaves the live set exactly the old one minus the
connections whose send failed (removal happens only after the full
iteration, so it affects only later broadcasts), and the pass still
delivers to every other live connection whose payload is truthy and whose
own send succeeds, whatever other sends failed. The three public variants
are thin wrappers of the same `_send_to_all` pass. -/
theorem broadcast_failure_containment (m : ConnectionManager)
    (gm : Conn → Bool → Option String) (ok : Conn → String → Bool)
    (hnd : (m.active_connections.map Prod.fst).Nodup) :
    ((_send_to_all m gm ok).1.active_connections
        = m.active_connections.filter (fun p => !sendFails gm ok p))
    ∧ ((_send_to_all m gm ok).2 = delivered_of gm ok m.active_connections)
    ∧ (∀ message, broadcast m message ok
        = _send_to_all m (fun _ _ => some message) ok)
    ∧ (∀ v e, broadcast_schedule m v e ok
        = _send_to_all m (fun _ is_editor => some (if is_editor then e else v)) ok)
    ∧ (∀ value, broadcast_brightness m value ok
        = _send_to_all { m with current_brightness := value }
            (fun _ _ => some (json_brightness value)) ok) := by
  refine ⟨?_, sendToAll_delivered gm ok m, fun _ => rfl, fun _ _ => rfl, fun _ => rfl⟩
  rw [sendToAll_active gm ok m, filter_not_mem_failed gm ok m hnd]

/-- A hub with an editor connection 0 and a viewer connection 1. -/
def m_two : ConnectionManager := ⟨[(0, true), (1, false)], 0⟩

/-- A transport where every send to connection 0 raises and every other
send succeeds. -/
def ok_fail0 : Conn → String → Bool := fun c _ => c != 0

/-- Witness for C4: the live-set clause instantiated on the two-connection
hub with a transport that fails for connection 0. -/
theorem broadcast_failure_containment_witness :
    (_send_to_all m_two (fun _ _ => some ("x")) ok_fail0).1.active_connections
      = m_two.active_connections.filter
          (fun p => !sendFails (fun _ _ => some ("x")) ok_fail0 p) :=
  (broadcast_failure_containment m_two (fun _ _ => some ("x")) ok_fail0 (by decide)).1

/-- C5 counterexample: with an empty editor payload, the connected editor
receives nothing — `broadcast_schedule` delivers no message at all to the
hub whose only live connection is the editor 0, because the empty string
is falsy for `if message:` and is skipped without a send attempt, while
the claim predicts connection 0 receives exactly the editor payload. The
transport here never fails. -/
theorem broadcast_schedule_empty_payload_cex :
    (0, true) ∈ (connect ConnectionManager.empty 0 true).active_connections
    ∧ (broadcast_schedule (connect ConnectionManager.empty 0 true) "viewer" ""
        (fun _ _ => true)).2 = [] := by
  exact ⟨by decide, rfl⟩

/-- C5 (amended): after `connect(c, is_editor := true)`, provided every
send succeeds and both payloads are non-empty strings (an empty payload is
falsy for `if message:` and is skipped with no send attempt, as the
counterexample shows), `broadcast_schedule(viewer_payload, editor_payload)`
delivers in one pass over the live set: the whole delivery is the live set
mapped to its role payload, connection `c` receives exactly the editor
payload, and every live viewer connection receives exactly the viewer
payload. -/
theorem broadcast_schedule_role_payloads (m : ConnectionManager) (c : Conn)
    (v e : String) (ok : Conn → String → Bool)
    (hnd : (m.active_connections.map Prod.fst).Nodup)
    (hok : ∀ conn msg, ok conn msg = true)
    (hv : v ≠ "") (he : e ≠ "") :
    ((broadcast_schedule (connect m c true) v e ok).2
        = (connect m c true).active_connections.map
            (fun p => (p.1, if p.2 then e else v)))
    ∧ (c, e) ∈ (broadcast_schedule (connect m c true) v e ok).2
    ∧ (∀ s, (c, s) ∈ (broadcast_schedule (connect m c true) v e ok).2 → s = e)
    ∧ (∀ p ∈ (connect m c true).active_connections, p.2 = false →
        (p.1, v) ∈ (broadcast_schedule (connect m c true) v e ok).2
          ∧ ∀ s, (p.1, s) ∈ (broadcast_schedule (connect m c true) v e ok).2
            → s = v) := by
  have hkey : ∀ p ∈ (connect m c true).active_connections, p.1 = c → p.2 = true :=
    dictInsert_key_val m.active_connections c true
  have hnd2 : ((connect m c true).active_connections.map Prod.fst).Nodup :=
    dictInsert_nodup_keys m.active_connections c true hnd
  have hdel : (broadcast_schedule (connect m c true) v e ok).2
      = (connect m c true).active_connections.map
          (fun p => (p.1, if p.2 then e else v)) := by
    show (_send_to_all _ _ _).2 = _
    rw [sendToAll_delivered]
    exact delivered_of_total _ ok (fun p => if p.2 then e else v)
      (fun p => rfl)
      (fun p => by by_cases hb : p.2 <;> simp [hb, hv, he])
      (fun p => hok _ _) _
  refine ⟨hdel, ?_, ?_, ?_⟩
  · rw [hdel]
    exact List.mem_map.2 ⟨(c, true),
      mem_dictInsert_self m.active_connections c true, by simp⟩
  · intro s hs
    rw [hdel] at hs
    rcases List.mem_map.1 hs with ⟨p, hp, hpeq⟩
    rcases Prod.mk.inj hpeq with ⟨h1, h2⟩
    rw [hkey p hp h1] at h2
    simpa using h2.symm
  · intro p hp hpf
    constructor
    · rw [hdel]
      exact List.mem_map.2 ⟨p, hp, by simp [hpf]⟩
    · intro s hs
      rw [hdel] at hs
      rcases List.mem_map.1 hs with ⟨q, hq, hqeq⟩
      rcases Prod.mk.inj hqeq with ⟨h1, h2⟩
      have hqp : q = p := List.inj_on_of_nodup_map hnd2 hq hp h1
      rw [hqp, hpf] at h2
      simpa using h2.symm

/-- Witness for C5 (amended): the editor-delivery clause on a hub holding
one viewer connection 1, after connecting editor 0, with an all-success
transport and the payloads "view" and "edit". -/
theorem broadcast_schedule_role_payloads_witness :
    ((0 : Conn), "edit") ∈
      (broadcast_schedule (connect ⟨[(1, false)], 0⟩ 0 true) "view" "edit"
        (fun _ _ => true)).2 :=
  (broadcast_schedule_role_payloads ⟨[(1, false)], 0⟩ 0 ("view") ("edit")
    (fun _ _ => true) (by decide) (fun _ _ => rfl) (by decide) (by decide)).2.1

lemma json_brightness_ne_empty (value : Int) : json_brightness value ≠ "" := by
  intro h
  have hl := congrArg String.length h
  rw [json_brightness, String.length_append, String.length_append] at hl
  rw [show ("\x7b\"type\": \"brightness\", \"value\": ").length = 32 from rfl] at hl
  rw [show ("" : String).length = 0 from rfl] at hl
  omega

/-- C9: `broadcast_brightness(value)` stores the value before any send is
attempted — the stored brightness equals `value` afterwards whatever the
transport outcomes are — and every live connection whose send succeeds
receives the brightness event, a JSON object text carrying the
"brightness" type tag and the integer value field equal to `value`. -/
theorem broadcast_brightness_stores_and_delivers (m : ConnectionManager)
    (value : Int) (ok : Conn → String → Bool) :
    ((broadcast_brightness m value ok).1.current_brightness = value)
    ∧ (∀ p ∈ m.active_connections, ok p.1 (json_brightness value) = true →
        (p.1, json_brightness value) ∈ (broadcast_brightness m value ok).2)
    ∧ json_brightness value
        = "\x7b\"type\": \"brightness\", \"value\": " ++ toString value ++ "\x7d" := by
  refine ⟨?_, ?_, rfl⟩
  · show (_send_to_all _ _ _).1.current_brightness = value
    rw [sendToAll_brightness]
  · intro p hp hpok
    show (p.1, json_brightness value) ∈ (_send_to_all _ _ _).2
    rw [sendToAll_delivered]
    exact mem_delivered_of _ ok _ p hp (json_brightness value) rfl
      (json_brightness_ne_empty value) hpok

/-- Witness for C9: the delivery clause on the two-connection hub with an
all-success transport and brightness 7. -/
theorem broadcast_brightness_stores_and_delivers_witness :
    ((0 : Conn), json_brightness 7) ∈
      (broadcast_brightness m_two 7 (fun _ _ => true)).2 :=
  (broadcast_brightness_stores_and_delivers m_two 7 (fun _ _ => true)).2.1
    (0, true) (by decide) rfl

/-! Schedule store (`app/sheets.py`). The live Google worksheet is
abstracted as its `get_all_values()` result: a list of rows, each a list
of cell strings (gspread hands every cell over as a string, so the
source's `str(...)` is the identity). Python string primitives are
embedded as structural recursion over the character list of a string:
`strip()` drops whitespace from both ends, `split(":")` splits on the
colon, `int()` accepts optional surrounding whitespace and one optional
sign around a non-empty run of decimal digits and raises otherwise, and
`datetime.time(h, m)` raises outside 0 ≤ h < 24, 0 ≤ m < 60; every raise
is caught by `_parse_time` and becomes `none`. A constructed time is
embedded as seconds since midnight. -/

def COL_ARTIST_NAME : Nat := 2
def COL_SCHEDULED_START : Nat := 4
def COL_SCHEDULED_END : Nat := 5
def COL_ACTUAL_START : Nat := 6
def COL_ACTUAL_END : Nat := 7
def HEADER_ROW : Nat := 5

/-- Python `str.strip()` on a character list: drop leading and trailing
whitespace. -/
def pyStrip (cs : List Char) : List Char :=
  ((cs.dropWhile Char.isWhitespace).reverse.dropWhile Char.isWhitespace).reverse

/-- Python `str.split(sep)` for a one-character separator, on a character
list: `accum` holds the current piece reversed. Splitting the empty string
yields `[[]]`, like Python's `"".split(":") == [""]`. -/
def pySplit (sep : Char) : List Char → List Char → List (List Char)
  | [], accum => [accum.reverse]
  | c :: rest, accum =>
      if c = sep then accum.reverse :: pySplit sep rest []
      else pySplit sep rest (c :: accum)

/-- Decimal digit run to a natural number. -/
def digitsToNat (cs : List Char) : Nat :=
  cs.foldl (fun n c => n * 10 + (c.toNat - '0'.toNat)) 0

/-- Non-empty all-digit run, or `none`. -/
def parseDigits (cs : List Char) : Option Nat :=
  if cs ≠ [] ∧ cs.all Char.isDigit then some (digitsToNat cs) else none

/-- Python `int(text)` on the cell fragments this module feeds it:
whitespace is stripped, one optional sign is allowed, then a non-empty
run of ASCII decimal digits; anything else raises `ValueError` (`none`
here). -/
def pyInt (s : String) : Option Int :=
  match pyStrip s.data with
  | '-' :: rest => (parseDigits rest).map (fun n => -(n : Int))
  | '+' :: rest => (parseDigits rest).map (fun n => (n : Int))
  | t => (parseDigits t).map (fun n => (n : Int))

/-- Python `datetime.time(h, m)`: raises outside the valid ranges; a valid
time becomes its seconds since midnight. -/
def pyTime (h m : Int) : Option Nat :=
  if 0 ≤ h ∧ h < 24 ∧ 0 ≤ m ∧ m < 60 then
    some (h.toNat * 3600 + m.toNat * 60)
  else none

/-- `_parse_time` (`app/sheets.py` lines 59-67): empty or blank cells are
"absent"; otherwise strip, split on ":", parse the first two pieces as
integers and build a time; `ValueError`/`IndexError` (bad digits, missing
minute piece, out-of-range values) yield `None`. -/
def _parse_time (time_str : String) : Option Nat :=
  if time_str = "" ∨ pyStrip time_str.data = [] then none
  else
    match pySplit ':' (pyStrip time_str.data) [] with
    | p0 :: p1 :: _ =>
        match pyInt ⟨p0⟩, pyInt ⟨p1⟩ with
        | some h, some m => pyTime h m
        | _, _ => none
    | _ => none

/-- `_get_cell` (`app/sheets.py` lines 77-82): 1-indexed column access with
an empty-string default past the row's end. -/
def _get_cell (row : List String) (col : Nat) : String :=
  row.getD (col - 1) ""

/-- Body of the row loop of `get_schedule` (`app/sheets.py` lines 93-108):
a row yields an Act when its artist-name cell is non-empty and both
scheduled times parse; otherwise the row is skipped. -/
def row_to_act (row : List String) : Option Act :=
  let act_name := _get_cell row COL_ARTIST_NAME
  match _parse_time (_get_cell row COL_SCHEDULED_START),
      _parse_time (_get_cell row COL_SCHEDULED_END) with
  | some ss, some se =>
      if act_name = "" then none
      else some
        { act_name := act_name
          scheduled_start := ss
          scheduled_end := se
          actual_start := _parse_time (_get_cell row COL_ACTUAL_START)
          actual_end := _parse_time (_get_cell row COL_ACTUAL_END)
          notes := none }
  | _, _ => none

/-- `get_schedule` (`app/sheets.py` lines 85-110): skip the five header
rows, then accumulate an Act per qualifying row in sheet order. -/
def get_schedule (all_values : List (List String)) : List Act :=
  (all_values.drop HEADER_ROW).foldl
    (fun acts row =>
      match row_to_act row with
      | some act => acts ++ [act]
      | none => acts) []

lemma get_schedule_eq_filterMap (all_values : List (List String)) :
    get_schedule all_values = (all_values.drop HEADER_ROW).filterMap row_to_act := by
  unfold get_schedule
  have key : ∀ (rows : List (List String)) (acc : List Act),
      rows.foldl
        (fun acts row =>
          match row_to_act row with
          | some act => acts ++ [act]
          | none => acts) acc
        = acc ++ rows.filterMap row_to_act := by
    intro rows
    induction rows with
    | nil => intro acc; simp
    | cons r rest ih =>
        intro acc
        rcases h : row_to_act r with _ | a <;>
          simp only [List.foldl_cons, h, List.filterMap_cons] <;> rw [ih] <;> simp
  simpa using key (all_values.drop HEADER_ROW) []

/-- A sheet whose two qualifying data rows (after the five header rows)
are out of chronological order: 13:00 before 12:00. -/
def sheet_out_of_order : List (List String) :=
  [[], [], [], [], [],
   ["", "Act A", "", "13:00", "14:00"],
   ["", "Act B", "", "12:00", "13:00"]]

/-- The same two qualifying rows in chronological order. -/
def sheet_in_order : List (List String) :=
  [[], [], [], [], [],
   ["", "Act B", "", "12:00", "13:00"],
   ["", "Act A", "", "13:00", "14:00"]]

/-- C6 counterexample: `get_schedule` does not sort. On a sheet whose
qualifying rows are out of chronological order it returns the acts in
sheet row order, which is not sorted by ascending `scheduled_start` —
against the claim that the result is sorted for every sheet contents. -/
theorem get_schedule_not_sorted_cex :
    ¬ (get_schedule sheet_out_of_order).Pairwise
        (fun a b => a.scheduled_start ≤ b.scheduled_start) := by
  decide

/-- C6 (amended): `get_schedule` returns the acts of the qualifying data
rows in sheet row order — it performs no sorting — and is therefore sorted
by ascending `scheduled_start` exactly when the sheet's qualifying rows
already are. -/
theorem get_schedule_row_order (all_values : List (List String)) :
    (get_schedule all_values
        = (all_values.drop HEADER_ROW).filterMap row_to_act)
    ∧ (((all_values.drop HEADER_ROW).filterMap row_to_act).Pairwise
          (fun a b => a.scheduled_start ≤ b.scheduled_start) →
        (get_schedule all_values).Pairwise
          (fun a b => a.scheduled_start ≤ b.scheduled_start)) := by
  refine ⟨get_schedule_eq_filterMap all_values, fun h => ?_⟩
  rw [get_schedule_eq_filterMap all_values]
  exact h

/-- Witness for C6 (amended): the sortedness clause on the chronologically
ordered concrete sheet. -/
theorem get_schedule_row_order_witness :
    (get_schedule sheet_in_order).Pairwise
      (fun a b => a.scheduled_start ≤ b.scheduled_start) :=
  (get_schedule_row_order sheet_in_order).2 (by decide)

end CoachellaSetSchedule
